import Mathlib

/-!
Shallow embedding of the rd-bedrock-nova repository for specification
checking.  Python floats are modelled as exact rationals (ℚ), UUIDs as
natural numbers, and fallible constructors / commands return `Except`.
Random identifiers and wall-clock timestamps carried by domain events
(`event_id`, `occurred_at`) are environment effects with no bearing on any
claim below and are omitted from the event payloads.
-/

namespace Nova

/-! ## Value objects (src/infra/cdk/domain/audio/value_objects) -/

/-- `AudioFormat` enum from audio_metadata.py. -/
inductive AudioFormat
  | wav | mp3 | flac | m4a | ogg
  deriving DecidableEq, Repr

/-- `AudioMetadata` value object (audio_metadata.py). -/
structure AudioMetadata where
  durationSeconds : ℚ
  sampleRate : ℕ
  channels : ℕ
  format : AudioFormat
  fileSizeBytes : ℤ := 0
  bitrate : ℤ := 0
  deriving DecidableEq, Repr

/-- `VALID_SAMPLE_RATES` from audio_metadata.py. -/
def validSampleRates : List ℕ := [8000, 16000, 22050, 44100, 48000]

/-- `AudioMetadata._validate`: duration > 0, sample rate in the allowed set,
channels 1 or 2, file size ≥ 0.  The Python constructor raises `ValueError`
on violation; the embedding returns `Except`. -/
def mkAudioMetadata (d : ℚ) (sr ch : ℕ) (fmt : AudioFormat)
    (size bitrate : ℤ) : Except String AudioMetadata :=
  if d ≤ 0 then .error "Duration must be positive"
  else if ¬ (sr ∈ validSampleRates) then .error "Invalid sample rate"
  else if ¬ (ch = 1 ∨ ch = 2) then .error "Invalid channels"
  else if size < 0 then .error "File size cannot be negative"
  else .ok ⟨d, sr, ch, fmt, size, bitrate⟩

/-- `TranscriptSegment` value object (transcript_segment.py). -/
structure TranscriptSegment where
  startTime : ℚ
  endTime : ℚ
  text : String
  confidence : ℚ
  speakerId : Option String := none
  deriving DecidableEq, Repr

/-- `TranscriptSegment._validate`: start ≥ 0, end > start, confidence in
[0, 1].  Raises `ValueError` in Python; `Except` here. -/
def mkTranscriptSegment (s e : ℚ) (text : String) (c : ℚ)
    (sp : Option String) : Except String TranscriptSegment :=
  if s < 0 then .error "start_time must be non-negative"
  else if e ≤ s then .error "end_time must be greater than start_time"
  else if ¬ (0 ≤ c ∧ c ≤ 1) then .error "confidence must be between 0.0 and 1.0"
  else .ok ⟨s, e, text, c, sp⟩

namespace TranscriptSegment

/-- `TranscriptSegment.contains_time`: `start_time <= time < end_time`. -/
def containsTime (seg : TranscriptSegment) (time : ℚ) : Bool :=
  decide (seg.startTime ≤ time) && decide (time < seg.endTime)

end TranscriptSegment

/-- `Sentiment` enum from sentiment_score.py. -/
inductive Sentiment
  | positive | negative | neutral
  deriving DecidableEq, Repr

/-- `SentimentScore` value object (sentiment_score.py). -/
structure SentimentScore where
  positive : ℚ
  negative : ℚ
  neutral : ℚ
  deriving DecidableEq, Repr

/-- Failure modes of `SentimentScore._validate`. -/
inductive SentimentErr
  | outOfRange
  | badSum
  deriving DecidableEq, Repr

/-- `SentimentScore.__post_init__` / `_validate`: each component in [0, 1],
and `abs(total - 1.0) <= 0.01`. -/
def mkSentimentScore (p n u : ℚ) : Except SentimentErr SentimentScore :=
  if ¬ (0 ≤ p ∧ p ≤ 1 ∧ 0 ≤ n ∧ n ≤ 1 ∧ 0 ≤ u ∧ u ≤ 1) then
    .error .outOfRange
  else if ¬ (|p + n + u - 1| ≤ 1 / 100) then .error .badSum
  else .ok ⟨p, n, u⟩

namespace SentimentScore

/-- `SentimentScore.dominant`: Python's `max` over the dict
`[POSITIVE ↦ p, NEGATIVE ↦ n, NEUTRAL ↦ u]` returns the first key (in
insertion order) whose value is maximal. -/
def dominant (s : SentimentScore) : Sentiment :=
  if s.positive ≥ s.negative ∧ s.positive ≥ s.neutral then .positive
  else if s.negative ≥ s.neutral then .negative
  else .neutral

/-- `SentimentScore.neutral_default`: `cls(positive=0, negative=0, neutral=1)`. -/
def neutralDefault : SentimentScore := ⟨0, 0, 1⟩

end SentimentScore

/-- `Transcription` entity (src/src/domain/audio/entities/transcription.py);
the random `id` and the `created_at` clock stamp are omitted. -/
structure Transcription where
  text : String
  segments : List TranscriptSegment := []
  language : String := "ja-JP"
  confidence : ℚ := 0
  deriving DecidableEq, Repr

/-! ## Domain events (src/infra/cdk/domain/audio/events/audio_events.py) -/

/-- The closed set of six audio domain events.  Payload fields mirror the
Python dataclasses; `event_id`/`occurred_at` omitted (see file header).
Segments travel through the `TranscriptionCompleted` event as dicts in
Python (`to_dict`/`from_dict` round-trip); they are carried directly here. -/
inductive DomainEvent
  | audioCreated (audioId userId : ℕ) (s3Key : String) (metadata : AudioMetadata)
  | audioProcessingStarted (audioId : ℕ)
  | transcriptionCompleted (audioId : ℕ) (text : String) (confidence : ℚ)
      (segments : List TranscriptSegment) (language : String)
  | sentimentAnalyzed (audioId : ℕ) (sentiment : Sentiment) (scores : SentimentScore)
  | audioProcessingCompleted (audioId : ℕ)
  | audioProcessingFailed (audioId : ℕ) (reason errorCode : String)
  deriving DecidableEq, Repr

/-! ## AudioFile aggregate root (src/infra/cdk/domain/audio/entities/audio_file.py) -/

/-- `ProcessingStatus` enum. -/
inductive ProcessingStatus
  | pending | processing | completed | failed
  deriving DecidableEq, Repr

/-- The `AudioFile` dataclass.  `_version` and `_uncommitted_events` are the
event-sourcing bookkeeping fields. -/
structure AudioFile where
  id : ℕ := 0
  userId : Option ℕ := none
  s3Key : String := ""
  metadata : Option AudioMetadata := none
  status : ProcessingStatus := .pending
  transcription : Option Transcription := none
  sentiment : Option SentimentScore := none
  version : ℕ := 0
  uncommittedEvents : List DomainEvent := []
  deriving DecidableEq, Repr

namespace AudioFile

/-- `AudioFile._when`: dispatch an event to the matching `_on_*` state-update
routine. -/
def whenEvent (a : AudioFile) : DomainEvent → AudioFile
  | .audioCreated audioId userId s3Key metadata =>
      { a with id := audioId, userId := some userId, s3Key := s3Key,
               metadata := some metadata, status := .pending }
  | .audioProcessingStarted _ => { a with status := .processing }
  | .transcriptionCompleted _ text confidence segments language =>
      { a with transcription := some ⟨text, segments, language, confidence⟩ }
  | .sentimentAnalyzed _ _ scores => { a with sentiment := some scores }
  | .audioProcessingCompleted _ => { a with status := .completed }
  | .audioProcessingFailed _ _ _ => { a with status := .failed }

/-- `AudioFile._apply`: update state via `_when`, then record the event in
the uncommitted buffer. -/
def applyEvent (a : AudioFile) (e : DomainEvent) : AudioFile :=
  let a' := a.whenEvent e
  { a' with uncommittedEvents := a'.uncommittedEvents ++ [e] }

/-- `AudioFile.create` factory: start from the dataclass defaults and apply
`AudioCreated`.  `audioId` stands for the `uuid4()` drawn inside `create`. -/
def create (audioId userId : ℕ) (s3Key : String) (metadata : AudioMetadata) :
    AudioFile :=
  applyEvent {} (.audioCreated audioId userId s3Key metadata)

/-- `AudioFile.start_processing`: only from PENDING. -/
def startProcessing (a : AudioFile) : Except String AudioFile :=
  if a.status ≠ .pending then
    .error "Cannot start processing: only PENDING state is allowed"
  else
    .ok (a.applyEvent (.audioProcessingStarted a.id))

/-- `AudioFile.complete_transcription`: only in PROCESSING; emits
`TranscriptionCompleted` carrying the transcription's fields. -/
def completeTranscription (a : AudioFile) (t : Transcription) :
    Except String AudioFile :=
  if a.status ≠ .processing then
    .error "Cannot complete transcription: only PROCESSING state is allowed"
  else
    .ok (a.applyEvent
      (.transcriptionCompleted a.id t.text t.confidence t.segments t.language))

/-- `AudioFile.analyze_sentiment`: only in PROCESSING; emits
`SentimentAnalyzed` with the dominant label and the score dict. -/
def analyzeSentiment (a : AudioFile) (s : SentimentScore) :
    Except String AudioFile :=
  if a.status ≠ .processing then
    .error "Cannot analyze sentiment: only PROCESSING state is allowed"
  else
    .ok (a.applyEvent (.sentimentAnalyzed a.id s.dominant s))

/-- `AudioFile.complete_processing`: only from PROCESSING. -/
def completeProcessing (a : AudioFile) : Except String AudioFile :=
  if a.status ≠ .processing then
    .error "Cannot complete processing: only PROCESSING state is allowed"
  else
    .ok (a.applyEvent (.audioProcessingCompleted a.id))

/-- `AudioFile.fail_processing`: allowed from any state. -/
def failProcessing (a : AudioFile) (reason errorCode : String) : AudioFile :=
  a.applyEvent (.audioProcessingFailed a.id reason errorCode)

/-- `AudioFile.mark_events_as_committed`: fold the uncommitted buffer into
the version counter and clear it. -/
def markEventsAsCommitted (a : AudioFile) : AudioFile :=
  { a with version := a.version + a.uncommittedEvents.length,
           uncommittedEvents := [] }

end AudioFile

/-! ## Event Store (src/src/infrastructure/event_store/dynamodb_event_store.py)

The DynamoDB table is modelled as a list of stored records.  A record's
sort key is `v{version:010d}`; since every version this code writes is below
10^10, the zero-padded lexicographic order used by the table coincides with
the numeric order on `version`, so the `ScanIndexForward=False, Limit=1`
query of `_get_current_version` returns the record of maximal version. -/

/-- One item of the event-store table (`_serialize_event` output), with the
event payload kept abstract. -/
structure StoredRecord (α : Type) where
  aggregateType : String
  aggregateId : ℕ
  version : ℕ
  event : α
  deriving DecidableEq, Repr

namespace EventStore

/-- `DynamoDBEventStore._get_current_version`: the highest version stored
for the aggregate, 0 when it has no records. -/
def getCurrentVersion (store : List (StoredRecord α))
    (aggregateType : String) (aggregateId : ℕ) : ℕ :=
  ((store.filter fun r =>
      r.aggregateType = aggregateType ∧ r.aggregateId = aggregateId)).foldl
    (fun acc r => max acc r.version) 0

/-- The version-assignment loop of `append_events`: item `i` (0-based) gets
version `expected_version + i + 1`. -/
def assignVersions (aggregateType : String) (aggregateId : ℕ)
    (base : ℕ) : List α → List (StoredRecord α)
  | [] => []
  | e :: es =>
      ⟨aggregateType, aggregateId, base + 1, e⟩ ::
        assignVersions aggregateType aggregateId (base + 1) es

/-- `DynamoDBEventStore.append_events`: optimistic-lock check against the
current version, then batch-write the events with consecutive versions.
`ConcurrencyError` is the error case; the store value is returned unchanged
only through the caller keeping its original list. -/
def appendEvents (store : List (StoredRecord α))
    (aggregateType : String) (aggregateId : ℕ) (events : List α)
    (expectedVersion : ℕ) : Except (ℕ × ℕ) (List (StoredRecord α)) :=
  let currentVersion := getCurrentVersion store aggregateType aggregateId
  if currentVersion ≠ expectedVersion then
    .error (expectedVersion, currentVersion)
  else
    .ok (store ++ assignVersions aggregateType aggregateId expectedVersion events)

end EventStore

/-! ## Model-gateway retry helper (src/infra/cdk/agent/tools/audio.py,
`invoke_with_retry`) -/

/-- Outcome of one `client.invoke_model` call: success, a `ClientError`
carrying its service error code, or any other exception. -/
inductive CallOutcome (ρ : Type)
  | success (resp : ρ)
  | clientError (code : String)
  | otherError (msg : String)
  deriving DecidableEq, Repr

/-- How `invoke_with_retry` terminates. -/
inductive RetryErr
  | clientError (code : String)
  | otherError (msg : String)
  | failedAfterMax (n : ℕ)
  deriving DecidableEq, Repr

/-- Observable behaviour of one `invoke_with_retry` run: the returned value
or raised error, the number of `invoke_model` calls made, and the sleep
durations performed (in seconds), in order. -/
structure RetryTrace (ρ : Type) where
  result : Except RetryErr ρ
  attempts : ℕ
  sleeps : List ℚ
  deriving Repr

namespace Retry

/-- Prefix a sleep and one more attempt onto a later trace. -/
def afterSleep (d : ℚ) (t : RetryTrace ρ) : RetryTrace ρ :=
  ⟨t.result, t.attempts + 1, d :: t.sleeps⟩

/-- The `for attempt in range(max_retries)` loop of `invoke_with_retry`.
`client` maps the attempt index to that call's outcome, `rand` is the
`random.uniform(0,1)` draw used in the backoff, and `remaining` counts the
loop iterations left (`attempt = maxRetries - remaining`). -/
def loop (client : ℕ → CallOutcome ρ) (rand : ℕ → ℚ) (maxRetries : ℕ) :
    (remaining : ℕ) → RetryTrace ρ
  | 0 => ⟨.error (.failedAfterMax maxRetries), 0, []⟩
  | remaining + 1 =>
      let attempt := maxRetries - (remaining + 1)
      match client attempt with
      | .success r => ⟨.ok r, 1, []⟩
      | .clientError code =>
          if code = "ThrottlingException" then
            afterSleep (2 ^ attempt + rand attempt)
              (loop client rand maxRetries remaining)
          else if code = "ModelTimeoutException" then
            if attempt = maxRetries - 1 then ⟨.error (.clientError code), 1, []⟩
            else afterSleep 1 (loop client rand maxRetries remaining)
          else if code = "ServiceUnavailableException" ∨
              code = "InternalServerException" then
            afterSleep (2 ^ attempt + rand attempt)
              (loop client rand maxRetries remaining)
          else ⟨.error (.clientError code), 1, []⟩
      | .otherError msg =>
          if attempt = maxRetries - 1 then ⟨.error (.otherError msg), 1, []⟩
          else afterSleep 1 (loop client rand maxRetries remaining)

/-- `invoke_with_retry` itself (`max_retries` defaults to 3 at the call
sites).  The body-serialization steps before `invoke_model` do not fail for
well-formed inputs and are not modelled. -/
def invokeWithRetry (client : ℕ → CallOutcome ρ) (rand : ℕ → ℚ)
    (maxRetries : ℕ) : RetryTrace ρ :=
  loop client rand maxRetries maxRetries

/-- The retryable `ClientError` codes of the except-branches. -/
def retryableCode (code : String) : Bool :=
  code = "ThrottlingException" ∨ code = "ModelTimeoutException" ∨
    code = "ServiceUnavailableException" ∨ code = "InternalServerException"

end Retry

/-! ## Stable sorting

Python's `list.sort` is stable; with `reverse=True` it orders by descending
key while keeping the original order of equal keys.  A stable sort for a
total preorder has a unique output, so the structurally recursive insertion
sort below computes exactly what Python's Timsort computes.  `le x y = true`
means x may be placed before y. -/

/-- Insert `x` in front of the first element it may precede. -/
def insertLe (le : α → α → Bool) (x : α) : List α → List α
  | [] => [x]
  | y :: ys => if le x y then x :: y :: ys else y :: insertLe le x ys

/-- Stable insertion sort: each element is inserted into the sorted version
of its original suffix, so it precedes every equal-keyed element that
followed it originally. -/
def sortStable (le : α → α → Bool) : List α → List α
  | [] => []
  | x :: xs => insertLe le x (sortStable le xs)

/-! ## S3 Vectors gateway, hybrid search
(src/src/infrastructure/gateways/s3/s3_vectors_gateway.py) -/

/-- A metadata value: the gateway only distinguishes string values from
everything else. -/
inductive MetaValue
  | str (s : String)
  | other
  deriving DecidableEq, Repr

/-- `QueryResult` dataclass: key, score, metadata. -/
structure QueryResult where
  key : String
  score : ℚ
  metadata : List (String × MetaValue)
  deriving DecidableEq, Repr

namespace Vectors

/-- Python's `needle in hay` substring test, on character lists. -/
def charsStartWith : List Char → List Char → Bool
  | [], _ => true
  | _ :: _, [] => false
  | a :: as, b :: bs => a = b && charsStartWith as bs

/-- `needle in hay` for strings: some suffix of `hay` starts with `needle`. -/
def charsContain (needle : List Char) : List Char → Bool
  | [] => needle.isEmpty
  | hay@(_ :: rest) => charsStartWith needle hay || charsContain needle rest

/-- Substring containment on `String`, as Python's `in`. -/
def strContains (hay needle : String) : Bool :=
  charsContain needle.data hay.data

/-- `str.lower()`, character by character (ASCII case folding stands in for
Python's Unicode folding; the claims only involve ASCII data). -/
def strLower (s : String) : String :=
  ⟨s.data.map Char.toLower⟩

/-- The per-candidate text-matching loop of `hybrid_search`: score 1.0 as
soon as one string-valued metadata field, lower-cased, contains the
lower-cased query, else 0.0. -/
def textScore (textLower : String) (metadata : List (String × MetaValue)) : ℚ :=
  if metadata.any fun kv =>
      match kv.2 with
      | .str v => strContains (strLower v) textLower
      | .other => false
  then 1 else 0

/-- Descending-by-score comparison used for the `reverse=True` sort. -/
def scoreDesc (a b : QueryResult) : Bool :=
  decide (b.score ≤ a.score)

/-- `S3VectorsGateway.hybrid_search`, with the upstream
`query_vectors` call abstracted as `vectorQuery : topK ↦ ranked results`
(the gateway passes `top_k * 2` to it).  `text_query` is falsy in Python
when absent or empty. -/
def hybridSearch (vectorQuery : ℕ → List QueryResult)
    (textQuery : Option String) (topK : ℕ) (vectorWeight : ℚ) :
    List QueryResult :=
  let vres := vectorQuery (topK * 2)
  match textQuery with
  | none => vres.take topK
  | some tq =>
      if tq.isEmpty then vres.take topK
      else
        let textLower := strLower tq
        let blended := vres.map fun r =>
          { r with score := vectorWeight * r.score +
              (1 - vectorWeight) * textScore textLower r.metadata }
        (sortStable scoreDesc blended).take topK

/-- Modelled from the claim's words, for comparison with the source: the
text score is 1.0 if the lower-cased text query is a substring of some
string-valued metadata field taken as-is (the field is not lower-cased). -/
def textScoreClaim (textLower : String) (metadata : List (String × MetaValue)) : ℚ :=
  if metadata.any fun kv =>
      match kv.2 with
      | .str v => strContains v textLower
      | .other => false
  then 1 else 0

/-- The claim's description of `hybrid_search`, differing from the source
only in `textScoreClaim`. -/
def hybridSearchClaim (vectorQuery : ℕ → List QueryResult)
    (textQuery : Option String) (topK : ℕ) (vectorWeight : ℚ) :
    List QueryResult :=
  let vres := vectorQuery (topK * 2)
  match textQuery with
  | none => vres.take topK
  | some tq =>
      if tq.isEmpty then vres.take topK
      else
        let textLower := strLower tq
        let blended := vres.map fun r =>
          { r with score := vectorWeight * r.score +
              (1 - vectorWeight) * textScoreClaim textLower r.metadata }
        (sortStable scoreDesc blended).take topK

end Vectors

/-! ## Nova embeddings gateway, batch generation
(src/src/infrastructure/gateways/bedrock/nova_embeddings_gateway.py) -/

/-- `InputModality` enum. -/
inductive InputModality
  | text | image | multimodal
  deriving DecidableEq, Repr

/-- `EmbeddingResult` dataclass. -/
structure EmbeddingResult where
  embedding : List ℚ
  dimension : ℕ
  modality : InputModality
  inputTokenCount : ℕ
  modelId : String
  deriving DecidableEq, Repr

/-- `BatchEmbeddingResult` dataclass. -/
structure BatchEmbeddingResult where
  embeddings : List EmbeddingResult
  totalInputTokens : ℕ
  successCount : ℕ
  errorCount : ℕ
  deriving DecidableEq, Repr

namespace Embeddings

/-- `MAX_BATCH_SIZE` class constant. -/
def maxBatchSize : ℕ := 32

/-- The zero-vector placeholder appended for a failed batch item. -/
def zeroResult (dim : ℕ) (modelId : String) : EmbeddingResult :=
  ⟨List.replicate dim 0, dim, .text, 0, modelId⟩

/-- The `for i, text in enumerate(texts)` loop of
`generate_batch_embeddings`, returning (embeddings, totalTokens,
errorCount).  `item i text` stands for the `generate_text_embedding` call
on the i-th input. -/
def batchLoop (item : ℕ → String → Except String EmbeddingResult)
    (dim : ℕ) (modelId : String) :
    (i : ℕ) → List String → List EmbeddingResult × ℕ × ℕ
  | _, [] => ([], 0, 0)
  | i, text :: rest =>
      let r := batchLoop item dim modelId (i + 1) rest
      match item i text with
      | .ok res => (res :: r.1, res.inputTokenCount + r.2.1, r.2.2)
      | .error _ => (zeroResult dim modelId :: r.1, r.2.1, r.2.2 + 1)

/-- `NovaEmbeddingsGateway.generate_batch_embeddings`: reject batches over
32 before touching any item; otherwise process sequentially, substituting a
zero vector per failed item, with
`success_count = len(embeddings) - error_count`. -/
def generateBatchEmbeddings (item : ℕ → String → Except String EmbeddingResult)
    (texts : List String) (dim : ℕ) (modelId : String) :
    Except String BatchEmbeddingResult :=
  if texts.length > maxBatchSize then
    .error "Batch size exceeds maximum of 32"
  else
    let (embs, tokens, errs) := batchLoop item dim modelId 0 texts
    .ok ⟨embs, tokens, embs.length - errs, errs⟩

end Embeddings

/-! ## Benchmark latency statistics (src/src/benchmarks/performance_metrics.py) -/

/-- `LatencyStats` dataclass.  The source stores the sample standard
deviation (`statistics.stdev`); its square — the sample variance — is kept
here so the embedding stays inside ℚ (the square root is strictly monotone
and never consulted by any claim; it is 0 exactly when the variance is 0). -/
structure LatencyStats where
  minMs : ℚ
  maxMs : ℚ
  meanMs : ℚ
  medianMs : ℚ
  p95Ms : ℚ
  p99Ms : ℚ
  varianceMs : ℚ
  sampleCount : ℕ
  deriving DecidableEq, Repr

namespace Bench

/-- Ascending comparison for `sorted(latencies_ms)`. -/
def rqLe (a b : ℚ) : Bool := decide (a ≤ b)

/-- `statistics.median`: middle element for odd n, mean of the two middle
elements for even n, over the ascending-sorted samples. -/
def medianOfSorted (s : List ℚ) : ℚ :=
  let n := s.length
  if n % 2 = 1 then s.getD (n / 2) 0
  else (s.getD (n / 2 - 1) 0 + s.getD (n / 2) 0) / 2

/-- `statistics.mean`. -/
def meanOf (s : List ℚ) : ℚ := s.sum / s.length

/-- Sample variance `Σ (x - mean)² / (n - 1)`; the source stores its square
root (`statistics.stdev`) when `n > 1` and literal 0 otherwise. -/
def sampleVariance (s : List ℚ) : ℚ :=
  let m := meanOf s
  (s.map fun x => (x - m) ^ 2).sum / (s.length - 1 : ℕ)

/-- `calculate_latency_stats`: all-zero statistics for the empty list;
otherwise min/max/mean/median plus p95/p99 read at `int(n*0.95)` and
`int(n*0.99)` clamped to the last index (`min(idx, n-1)`).  `int` truncates
the non-negative float product, i.e. floors it. -/
def calculateLatencyStats (latenciesMs : List ℚ) : LatencyStats :=
  if latenciesMs.isEmpty then ⟨0, 0, 0, 0, 0, 0, 0, 0⟩
  else
    let sorted := sortStable rqLe latenciesMs
    let n := sorted.length
    let p95Idx := n * 95 / 100
    let p99Idx := n * 99 / 100
    { minMs := sorted.getD 0 0
      maxMs := sorted.getD (n - 1) 0
      meanMs := meanOf sorted
      medianMs := medianOfSorted sorted
      p95Ms := sorted.getD (min p95Idx (n - 1)) 0
      p99Ms := sorted.getD (min p99Idx (n - 1)) 0
      varianceMs := if n > 1 then sampleVariance sorted else 0
      sampleCount := n }

end Bench

/-! ## TranscribeAudio use case
(src/src/application/use_cases/audio/transcribe_audio.py)

The ports (repository, transcription gateway, event publisher) are
abstracted as an environment of call outcomes, one per call site, in the
order the use case reaches them. -/

/-- One segment dict of the gateway result (`result.segments`). -/
structure GatewaySegment where
  startTime : ℚ
  endTime : ℚ
  text : String
  confidence : ℚ
  speakerId : Option String
  deriving DecidableEq, Repr

/-- The transcription gateway's result shape. -/
structure TranscribeResult where
  text : String
  confidence : ℚ
  segments : List GatewaySegment
  language : String
  speakers : List String
  deriving DecidableEq, Repr

/-- The exceptions `execute` can observe or raise. -/
inductive UseErr
  | audioNotFound
  | invalidState (msg : String)
  | gatewayError (msg : String)
  | badSegment (msg : String)
  | saveFailed (msg : String)
  | publishFailed (msg : String)
  | transcriptionError (inner : UseErr)
  deriving DecidableEq, Repr

/-- `str(e)` used as the `fail_processing` reason. -/
def UseErr.msg : UseErr → String
  | .audioNotFound => "audio not found"
  | .invalidState m => m
  | .gatewayError m => m
  | .badSegment m => m
  | .saveFailed m => m
  | .publishFailed m => m
  | .transcriptionError inner => "Failed to transcribe audio: " ++ inner.msg

/-- `TranscribeAudioOutput` DTO (segments carried directly instead of as
dicts). -/
structure TranscribeOutput where
  audioId : ℕ
  text : String
  confidence : ℚ
  segments : List TranscriptSegment
  speakers : List String
  deriving DecidableEq, Repr

/-- Call-site outcomes for one `execute` run: the repository lookup, the
gateway result, and the success (`none`) or raised error (`some msg`) of
each save/publish call, in program order. -/
structure TranscribeEnv where
  found : Option AudioFile
  transcribeResult : Except String TranscribeResult
  saveTry : Option String
  publishTry : Option String
  saveCatch : Option String
  publishCatch : Option String
  deriving Repr

/-- What one run did: the returned value or raised error, the aggregate as
the in-memory object ends up (`none` when never loaded), and the event
batches passed to `repo.save` and `publisher.publish_batch`. -/
structure ExecOutcome where
  result : Except UseErr TranscribeOutput
  finalAudio : Option AudioFile
  saved : List (List DomainEvent)
  published : List (List DomainEvent)
  deriving Repr

namespace TranscribeUC

/-- The `TranscriptSegment(...)` list comprehension: construction raises at
the first invalid segment. -/
def buildSegments : List GatewaySegment → Except String (List TranscriptSegment)
  | [] => .ok []
  | s :: rest => do
      let seg ← mkTranscriptSegment s.startTime s.endTime s.text s.confidence
        s.speakerId
      let segs ← buildSegments rest
      .ok (seg :: segs)

/-- Result of the `try` block, starting after the aggregate was loaded:
the outcome, the aggregate as mutated so far, and the batches saved and
published so far. -/
structure TryOut where
  res : Except UseErr TranscribeOutput
  audioNow : AudioFile
  saved : List (List DomainEvent)
  published : List (List DomainEvent)

/-- Steps 2–7 of `execute` (the `try` block after the repository lookup):
start processing, transcribe, build segments, complete transcription and
processing, save, publish, mark committed. -/
def tryBody (a0 : AudioFile) (env : TranscribeEnv) : TryOut :=
  match a0.startProcessing with
  | .error m => ⟨.error (.invalidState m), a0, [], []⟩
  | .ok a1 =>
      match env.transcribeResult with
      | .error m => ⟨.error (.gatewayError m), a1, [], []⟩
      | .ok res =>
          match buildSegments res.segments with
          | .error m => ⟨.error (.badSegment m), a1, [], []⟩
          | .ok segs =>
              let tr : Transcription :=
                ⟨res.text, segs, res.language, res.confidence⟩
              match a1.completeTranscription tr with
              | .error m => ⟨.error (.invalidState m), a1, [], []⟩
              | .ok a2 =>
                  match a2.completeProcessing with
                  | .error m => ⟨.error (.invalidState m), a2, [], []⟩
                  | .ok a3 =>
                      match env.saveTry with
                      | some m => ⟨.error (.saveFailed m), a3, [], []⟩
                      | none =>
                          match env.publishTry with
                          | some m =>
                              ⟨.error (.publishFailed m), a3,
                                [a3.uncommittedEvents], []⟩
                          | none =>
                              ⟨.ok ⟨a3.id, res.text, res.confidence, segs,
                                  res.speakers⟩,
                                a3.markEventsAsCommitted,
                                [a3.uncommittedEvents],
                                [a3.uncommittedEvents]⟩

/-- `TranscribeAudioUseCase.execute`: the lookup, the try block, and the
exception handler (re-raise `AudioNotFoundError` untouched; otherwise
`fail_processing(str(e), "TRANSCRIPTION_ERROR")`, save, publish, and raise
`TranscriptionError` wrapping the original). -/
def execute (env : TranscribeEnv) : ExecOutcome :=
  match env.found with
  | none => ⟨.error .audioNotFound, none, [], []⟩
  | some a0 =>
      let t := tryBody a0 env
      match t.res with
      | .ok out => ⟨.ok out, some t.audioNow, t.saved, t.published⟩
      | .error e =>
          match e with
          | .audioNotFound =>
              ⟨.error .audioNotFound, some t.audioNow, t.saved, t.published⟩
          | _ =>
              let af := t.audioNow.failProcessing e.msg "TRANSCRIPTION_ERROR"
              match env.saveCatch with
              | some m => ⟨.error (.saveFailed m), some af, t.saved, t.published⟩
              | none =>
                  match env.publishCatch with
                  | some m =>
                      ⟨.error (.publishFailed m), some af,
                        t.saved ++ [af.uncommittedEvents], t.published⟩
                  | none =>
                      ⟨.error (.transcriptionError e), some af,
                        t.saved ++ [af.uncommittedEvents],
                        t.published ++ [af.uncommittedEvents]⟩

end TranscribeUC

/-! ## Concrete fixtures used by counterexamples and witnesses -/

/-- A valid 30-second mono WAV metadata value. -/
def fixMeta : AudioMetadata := ⟨30, 16000, 1, .wav, 0, 0⟩

/-- A first transcription result. -/
def fixT1 : Transcription := ⟨"first", [], "ja-JP", 9/10⟩

/-- A second, different transcription result. -/
def fixT2 : Transcription := ⟨"second", [], "ja-JP", 4/5⟩

/-- `create → startProcessing → completeTranscription t1 →
completeTranscription t2`: the run the at-most-once claim is about. -/
def fixDoubleRun : Except String AudioFile :=
  (AudioFile.create 1 2 "k" fixMeta).startProcessing >>=
    (AudioFile.completeTranscription · fixT1) >>=
    (AudioFile.completeTranscription · fixT2)

/-- A concrete aggregate in the Processing state. -/
def fixProcessing : AudioFile :=
  ((AudioFile.create 1 2 "k" fixMeta).startProcessing).toOption.getD {}

/-! ## Claim theorems -/

/-- Claim C1: the happy path `create → startProcessing →
completeTranscription → completeProcessing` ends with status Completed,
emits exactly four uncommitted events (one per command, in order), and
committing them yields version 4. -/
theorem C1_happy_path (aid uid : ℕ) (key : String) (m : AudioMetadata)
    (t : Transcription) :
    ∃ af : AudioFile,
      ((AudioFile.create aid uid key m).startProcessing >>= fun a =>
        a.completeTranscription t >>= fun b => b.completeProcessing) = .ok af ∧
      af.status = .completed ∧
      af.uncommittedEvents =
        [.audioCreated aid uid key m, .audioProcessingStarted aid,
         .transcriptionCompleted aid t.text t.confidence t.segments t.language,
         .audioProcessingCompleted aid] ∧
      af.markEventsAsCommitted.version = 4 :=
  ⟨_, rfl, rfl, rfl, rfl⟩

/-- Claim C3, counterexample: in the Processing state a second
`completeTranscription` is accepted (no error) and overwrites the
previously set transcription, instead of being rejected. -/
theorem C3_counterexample :
    fixDoubleRun.toOption.map AudioFile.status = some .processing ∧
    fixDoubleRun.toOption.bind AudioFile.transcription =
      some ⟨"second", [], "ja-JP", 4/5⟩ ∧
    ((fixDoubleRun.toOption.bind AudioFile.transcription).map
      Transcription.text = some "second") ∧
    ((fixDoubleRun.toOption.bind AudioFile.transcription).map
      Transcription.text ≠ some "first") ∧
    (∀ msg : String, fixDoubleRun ≠ .error msg) := by
  refine ⟨rfl, rfl, rfl, by decide, fun msg h => ?_⟩
  have hs : fixDoubleRun.toOption.isSome = true := rfl
  rw [h] at hs
  simp [Except.toOption] at hs

/-- Claim C3 as amended: while the aggregate is in Processing,
`completeTranscription` and `analyzeSentiment` are guarded only by the
status check — a repeated call succeeds and overwrites the stored value,
leaving the status at Processing. -/
theorem C3_amended (a : AudioFile) (t : Transcription) (s : SentimentScore)
    (h : a.status = .processing) :
    (∃ a2, a.completeTranscription t = .ok a2 ∧
      a2.transcription = some ⟨t.text, t.segments, t.language, t.confidence⟩ ∧
      a2.status = .processing) ∧
    (∃ a3, a.analyzeSentiment s = .ok a3 ∧
      a3.sentiment = some s ∧
      a3.status = .processing) := by
  constructor
  · refine ⟨a.applyEvent
      (.transcriptionCompleted a.id t.text t.confidence t.segments t.language),
      ?_, rfl, ?_⟩
    · rw [AudioFile.completeTranscription, if_neg (by simp [h])]
    · simpa [AudioFile.applyEvent, AudioFile.whenEvent] using h
  · refine ⟨a.applyEvent (.sentimentAnalyzed a.id s.dominant s), ?_, rfl, ?_⟩
    · rw [AudioFile.analyzeSentiment, if_neg (by simp [h])]
    · simpa [AudioFile.applyEvent, AudioFile.whenEvent] using h

/-- Witness for C3's amended theorem at a concrete Processing aggregate. -/
theorem C3_amended_witness :
    (∃ a2, fixProcessing.completeTranscription fixT2 = .ok a2 ∧
      a2.transcription =
        some ⟨fixT2.text, fixT2.segments, fixT2.language, fixT2.confidence⟩ ∧
      a2.status = .processing) ∧
    (∃ a3, fixProcessing.analyzeSentiment SentimentScore.neutralDefault = .ok a3 ∧
      a3.sentiment = some SentimentScore.neutralDefault ∧
      a3.status = .processing) :=
  C3_amended fixProcessing fixT2 SentimentScore.neutralDefault rfl

/-- Claim C8: every successfully constructed SentimentScore has components
in [0, 1] summing to 1 within 0.01; `(0.5, 0.5, 0.5)` is rejected; and
`neutral_default()` is `(0, 0, 1)`, a valid score whose dominant category
is neutral. -/
theorem C8_sentiment_invariant :
    (∀ p n u s, mkSentimentScore p n u = .ok s →
      (0 ≤ p ∧ p ≤ 1) ∧ (0 ≤ n ∧ n ≤ 1) ∧ (0 ≤ u ∧ u ≤ 1) ∧
      |p + n + u - 1| ≤ 1 / 100 ∧ s = ⟨p, n, u⟩) ∧
    mkSentimentScore (1/2) (1/2) (1/2) = .error .badSum ∧
    SentimentScore.neutralDefault = ⟨0, 0, 1⟩ ∧
    mkSentimentScore 0 0 1 = .ok SentimentScore.neutralDefault ∧
    SentimentScore.neutralDefault.dominant = .neutral := by
  refine ⟨?_, ?_, rfl, ?_, ?_⟩
  · intro p n u s h
    unfold mkSentimentScore at h
    split at h
    · exact absurd h (by simp)
    · split at h
      · exact absurd h (by simp)
      · rename_i hrange hsum
        push_neg at hrange
        obtain ⟨h1, h2, h3, h4, h5, h6⟩ := hrange
        injection h with hv
        exact ⟨⟨h1, h2⟩, ⟨h3, h4⟩, ⟨h5, h6⟩, not_not.mp hsum, hv.symm⟩
  · unfold mkSentimentScore
    rw [if_neg (by norm_num), if_pos]
    rw [show (1:ℚ)/2 + 1/2 + 1/2 - 1 = 1/2 by norm_num,
      abs_of_pos (by norm_num : (0:ℚ) < 1/2)]
    norm_num
  · unfold mkSentimentScore
    rw [if_neg (by norm_num), if_neg (by norm_num)]
    rfl
  · norm_num [SentimentScore.dominant, SentimentScore.neutralDefault]

/-- Claim C9: every validly constructed TranscriptSegment treats its time
range as half-open — `contains_time(start)` is true, `contains_time(end)`
is false, and in general `contains_time(t) ↔ start ≤ t < end`. -/
theorem C9_half_open (s e : ℚ) (txt : String) (c : ℚ) (sp : Option String)
    (seg : TranscriptSegment) (h : mkTranscriptSegment s e txt c sp = .ok seg) :
    seg.containsTime seg.startTime = true ∧
    seg.containsTime seg.endTime = false ∧
    ∀ t : ℚ, seg.containsTime t = true ↔ seg.startTime ≤ t ∧ t < seg.endTime := by
  unfold mkTranscriptSegment at h
  split at h
  · exact absurd h (by simp)
  · split at h
    · exact absurd h (by simp)
    · split at h
      · exact absurd h (by simp)
      · rename_i hs he hc
        have hseg : seg = ⟨s, e, txt, c, sp⟩ := (Except.ok.injEq _ _ ▸ h).symm
        subst hseg
        refine ⟨?_, ?_, ?_⟩
        · simp [TranscriptSegment.containsTime, lt_of_not_le he]
        · simp [TranscriptSegment.containsTime]
        · intro t
          simp [TranscriptSegment.containsTime]

/-- The versions assigned by the append loop are the consecutive range
`base+1 .. base+n`. -/
theorem assignVersions_map_version {α : Type} (aty : String) (aid : ℕ) :
    ∀ (es : List α) (base : ℕ),
      (EventStore.assignVersions aty aid base es).map StoredRecord.version =
        List.range' (base + 1) es.length
  | [], _ => rfl
  | _ :: es, base => by
      simp [EventStore.assignVersions, List.range'_succ,
        assignVersions_map_version aty aid es (base + 1)]

/-- The append loop writes exactly the given events, in order. -/
theorem assignVersions_map_event {α : Type} (aty : String) (aid : ℕ) :
    ∀ (es : List α) (base : ℕ),
      (EventStore.assignVersions aty aid base es).map StoredRecord.event = es
  | [], _ => rfl
  | _ :: es, base => by
      simp [EventStore.assignVersions, assignVersions_map_event aty aid es (base + 1)]

/-- Claim C2: `append_events` with an `expected_version` different from the
store's current highest version for the aggregate (0 when empty) raises a
concurrency conflict and writes nothing; with the matching version it
writes all events, assigned consecutive versions
`expected_version+1 .. expected_version+len(events)`. -/
theorem C2_optimistic_concurrency {α : Type} (store : List (StoredRecord α))
    (aty : String) (aid : ℕ) (events : List α) (expectedVersion : ℕ) :
    (EventStore.getCurrentVersion store aty aid ≠ expectedVersion →
      EventStore.appendEvents store aty aid events expectedVersion =
        .error (expectedVersion, EventStore.getCurrentVersion store aty aid)) ∧
    (EventStore.getCurrentVersion store aty aid = expectedVersion →
      EventStore.appendEvents store aty aid events expectedVersion =
        .ok (store ++ EventStore.assignVersions aty aid expectedVersion events) ∧
      (EventStore.assignVersions aty aid expectedVersion events).map
        StoredRecord.version = List.range' (expectedVersion + 1) events.length ∧
      (EventStore.assignVersions aty aid expectedVersion events).map
        StoredRecord.event = events) := by
  constructor
  · intro h
    simp [EventStore.appendEvents, h]
  · intro h
    refine ⟨by simp [EventStore.appendEvents, h], ?_, ?_⟩
    · exact assignVersions_map_version aty aid events expectedVersion
    · exact assignVersions_map_event aty aid events expectedVersion

/-- A client failing with a non-`ClientError` exception on every attempt. -/
def fixFailingClient : ℕ → CallOutcome Unit := fun _ => .otherError "boom"

/-- Claim C4, counterexample: a non-`ClientError` exception is not raised
immediately — with `max_retries = 3` the helper makes 3 attempts and sleeps
twice (1 second each) before re-raising on the final attempt. -/
theorem C4_counterexample :
    (Retry.invokeWithRetry fixFailingClient (fun _ => 0) 3).attempts = 3 ∧
    (Retry.invokeWithRetry fixFailingClient (fun _ => 0) 3).sleeps = [1, 1] ∧
    (Retry.invokeWithRetry fixFailingClient (fun _ => 0) 3).result =
      .error (.otherError "boom") ∧
    ¬ ((Retry.invokeWithRetry fixFailingClient (fun _ => 0) 3).attempts = 1 ∧
       (Retry.invokeWithRetry fixFailingClient (fun _ => 0) 3).sleeps = []) := by
  refine ⟨rfl, rfl, rfl, ?_⟩
  intro h
  have h3 : (Retry.invokeWithRetry fixFailingClient (fun _ => 0) 3).attempts = 3 := rfl
  have h1 := h.1
  omega

/-- Claim C4 as amended: a `ClientError` whose code is none of the four
retryable signals is raised immediately — one attempt, no sleep — on every
attempt including the first; a non-`ClientError` exception is instead
retried with a flat 1-second sleep and re-raised only on the final
attempt. -/
theorem C4_amended {ρ : Type} (client : ℕ → CallOutcome ρ) (rand : ℕ → ℚ)
    (maxRetries remaining : ℕ) (code msg : String) :
    (Retry.retryableCode code = false →
      client (maxRetries - (remaining + 1)) = .clientError code →
      Retry.loop client rand maxRetries (remaining + 1) =
        ⟨.error (.clientError code), 1, []⟩) ∧
    (client (maxRetries - (remaining + 1)) = .otherError msg →
      (maxRetries - (remaining + 1) = maxRetries - 1 →
        Retry.loop client rand maxRetries (remaining + 1) =
          ⟨.error (.otherError msg), 1, []⟩) ∧
      (maxRetries - (remaining + 1) ≠ maxRetries - 1 →
        Retry.loop client rand maxRetries (remaining + 1) =
          Retry.afterSleep 1 (Retry.loop client rand maxRetries remaining))) := by
  constructor
  · intro hcode hclient
    simp only [Retry.retryableCode, decide_eq_false_iff_not, not_or] at hcode
    obtain ⟨hc1, hc2, hc3, hc4⟩ := hcode
    simp [Retry.loop, hclient, hc1, hc2, hc3, hc4]
  · intro hclient
    constructor
    · intro hlast
      rw [hlast] at hclient
      simp [Retry.loop, hlast, hclient]
    · intro hnotlast
      simp [Retry.loop, hclient, hnotlast]

/-- A client failing with a non-retryable `ClientError` on every attempt. -/
def fixValidationClient : ℕ → CallOutcome Unit :=
  fun _ => .clientError "ValidationException"

/-- Witness for C4's amended theorem: a `ValidationException` on the first
of 3 attempts is raised at once, and a non-client error on the first
attempt is retried after a 1-second sleep. -/
theorem C4_amended_witness :
    Retry.loop fixValidationClient (fun _ => 0) 3 (2 + 1) =
      ⟨.error (.clientError "ValidationException"), 1, []⟩ ∧
    Retry.loop fixFailingClient (fun _ => 0) 3 (2 + 1) =
      Retry.afterSleep 1 (Retry.loop fixFailingClient (fun _ => 0) 3 2) := by
  constructor
  · exact (C4_amended fixValidationClient (fun _ => 0) 3 2 "ValidationException"
      "unused").1 (by simp [Retry.retryableCode]) rfl
  · exact ((C4_amended fixFailingClient (fun _ => 0) 3 2 "unused"
      "boom").2 rfl).2 (by decide)

/-- Inserting one element grows the length by one. -/
theorem insertLe_length {α : Type} (le : α → α → Bool) (x : α) :
    ∀ l : List α, (insertLe le x l).length = l.length + 1
  | [] => rfl
  | y :: ys => by
      simp only [insertLe]
      split
      · rfl
      · simp [insertLe_length le x ys]

/-- The stable sort is a length-preserving rearrangement. -/
theorem sortStable_length {α : Type} (le : α → α → Bool) :
    ∀ l : List α, (sortStable le l).length = l.length
  | [] => rfl
  | x :: xs => by simp [sortStable, insertLe_length, sortStable_length le xs]

/-- The embedding batch loop yields one result per input, in input order:
result `j` is the item call's value at index `i + j`, or the zero-vector
placeholder when that call failed. -/
theorem batchLoop_spec (item : ℕ → String → Except String EmbeddingResult)
    (dim : ℕ) (mid : String) :
    ∀ (ts : List String) (i : ℕ),
      (Embeddings.batchLoop item dim mid i ts).1 =
        (List.enumFrom i ts).map fun p =>
          match item p.1 p.2 with
          | .ok r => r
          | .error _ => Embeddings.zeroResult dim mid
  | [], _ => rfl
  | t :: ts, i => by
      cases hit : item i t <;>
        simp [Embeddings.batchLoop, hit, batchLoop_spec item dim mid ts (i + 1)]

/-- The batch loop's error tally never exceeds the number of inputs. -/
theorem batchLoop_errs_le (item : ℕ → String → Except String EmbeddingResult)
    (dim : ℕ) (mid : String) :
    ∀ (ts : List String) (i : ℕ),
      (Embeddings.batchLoop item dim mid i ts).2.2 ≤ ts.length
  | [], _ => Nat.le_refl 0
  | t :: ts, i => by
      have ih := batchLoop_errs_le item dim mid ts (i + 1)
      cases hit : item i t <;> simp only [Embeddings.batchLoop, hit, List.length_cons] <;> omega

/-- Claim C7: a batch of at most 32 texts yields exactly one result per
input in input order, failed items replaced by the zero vector of the
requested dimension, with `successCount + errorCount = len(inputs)`;
a batch of more than 32 texts is rejected up front, whatever the items
would have done. -/
theorem C7_batch_embeddings (item : ℕ → String → Except String EmbeddingResult)
    (texts : List String) (dim : ℕ) (mid : String) :
    (texts.length ≤ 32 →
      ∃ b, Embeddings.generateBatchEmbeddings item texts dim mid = .ok b ∧
        b.embeddings.length = texts.length ∧
        b.successCount + b.errorCount = texts.length ∧
        b.embeddings = (List.enumFrom 0 texts).map fun p =>
          match item p.1 p.2 with
          | .ok r => r
          | .error _ => Embeddings.zeroResult dim mid) ∧
    (texts.length > 32 →
      Embeddings.generateBatchEmbeddings item texts dim mid =
        .error "Batch size exceeds maximum of 32") := by
  constructor
  · intro h
    have hng : ¬ (texts.length > Embeddings.maxBatchSize) := by
      simp only [Embeddings.maxBatchSize]
      omega
    have hlen : (Embeddings.batchLoop item dim mid 0 texts).1.length = texts.length := by
      rw [batchLoop_spec]
      simp
    refine ⟨⟨(Embeddings.batchLoop item dim mid 0 texts).1,
        (Embeddings.batchLoop item dim mid 0 texts).2.1,
        (Embeddings.batchLoop item dim mid 0 texts).1.length -
          (Embeddings.batchLoop item dim mid 0 texts).2.2,
        (Embeddings.batchLoop item dim mid 0 texts).2.2⟩,
      ?_, ?_, ?_, batchLoop_spec item dim mid texts 0⟩
    · simp only [Embeddings.generateBatchEmbeddings, hng, if_false]
    · exact hlen
    · have herr := batchLoop_errs_le item dim mid texts 0
      simp only [hlen]
      omega
  · intro h
    have hg : texts.length > Embeddings.maxBatchSize := by
      simp only [Embeddings.maxBatchSize]
      omega
    simp only [Embeddings.generateBatchEmbeddings, hg, if_true]

/-- Claim C10: `calculate_latency_stats` is total — the empty sample list
yields the all-zero statistics with sample count 0, and for every
non-empty list the p95/p99 indices are clamped below the length of the
sorted list, so both reads land on actual samples. -/
theorem C10_latency_stats :
    Bench.calculateLatencyStats [] = ⟨0, 0, 0, 0, 0, 0, 0, 0⟩ ∧
    ∀ l : List ℚ, l ≠ [] →
      (Bench.calculateLatencyStats l).sampleCount = l.length ∧
      min (l.length * 95 / 100) (l.length - 1) < l.length ∧
      min (l.length * 99 / 100) (l.length - 1) < l.length ∧
      (Bench.calculateLatencyStats l).p95Ms =
        (sortStable Bench.rqLe l).getD (min (l.length * 95 / 100) (l.length - 1)) 0 ∧
      (Bench.calculateLatencyStats l).p95Ms ∈ sortStable Bench.rqLe l ∧
      (Bench.calculateLatencyStats l).p99Ms ∈ sortStable Bench.rqLe l := by
  constructor
  · rfl
  · intro l hl
    have hne : l.isEmpty = false := by simp [List.isEmpty_iff, hl]
    have hlen : (sortStable Bench.rqLe l).length = l.length :=
      sortStable_length Bench.rqLe l
    have hpos : 0 < l.length := List.length_pos.mpr hl
    have h95 : min (l.length * 95 / 100) (l.length - 1) < l.length :=
      lt_of_le_of_lt (min_le_right _ _) (by omega)
    have h99 : min (l.length * 99 / 100) (l.length - 1) < l.length :=
      lt_of_le_of_lt (min_le_right _ _) (by omega)
    have h95s : min (l.length * 95 / 100) (l.length - 1) <
        (sortStable Bench.rqLe l).length := by omega
    have h99s : min (l.length * 99 / 100) (l.length - 1) <
        (sortStable Bench.rqLe l).length := by omega
    have hstats : Bench.calculateLatencyStats l =
        { minMs := (sortStable Bench.rqLe l).getD 0 0
          maxMs := (sortStable Bench.rqLe l).getD ((sortStable Bench.rqLe l).length - 1) 0
          meanMs := Bench.meanOf (sortStable Bench.rqLe l)
          medianMs := Bench.medianOfSorted (sortStable Bench.rqLe l)
          p95Ms := (sortStable Bench.rqLe l).getD
            (min ((sortStable Bench.rqLe l).length * 95 / 100)
              ((sortStable Bench.rqLe l).length - 1)) 0
          p99Ms := (sortStable Bench.rqLe l).getD
            (min ((sortStable Bench.rqLe l).length * 99 / 100)
              ((sortStable Bench.rqLe l).length - 1)) 0
          varianceMs := if (sortStable Bench.rqLe l).length > 1 then
            Bench.sampleVariance (sortStable Bench.rqLe l) else 0
          sampleCount := (sortStable Bench.rqLe l).length } := by
      simp only [Bench.calculateLatencyStats, hne, Bool.false_eq_true, if_false]
    refine ⟨?_, h95, h99, ?_, ?_, ?_⟩
    · rw [hstats]
      exact hlen
    · rw [hstats]
      simp only [hlen]
    · rw [hstats]
      simp only [hlen]
      rw [List.getD_eq_getElem _ _ h95s]
      exact List.getElem_mem h95s
    · rw [hstats]
      simp only [hlen]
      rw [List.getD_eq_getElem _ _ h99s]
      exact List.getElem_mem h99s

/-- Membership in an insertion is membership in the parts. -/
theorem mem_insertLe {α : Type} (le : α → α → Bool) (x z : α) :
    ∀ l : List α, z ∈ insertLe le x l ↔ z = x ∨ z ∈ l
  | [] => by simp [insertLe]
  | y :: ys => by
      simp only [insertLe]
      split
      · simp
      · simp only [List.mem_cons, mem_insertLe le x z ys]
        tauto

/-- Inserting into a descending-by-score list keeps it descending. -/
theorem insertLe_pairwise_desc (x : QueryResult) :
    ∀ l : List QueryResult,
      l.Pairwise (fun a b => b.score ≤ a.score) →
      (insertLe Vectors.scoreDesc x l).Pairwise (fun a b => b.score ≤ a.score)
  | [], _ => by simp [insertLe]
  | y :: ys, h => by
      rw [List.pairwise_cons] at h
      obtain ⟨hy, hys⟩ := h
      simp only [insertLe]
      split
      · rename_i hle
        have hxy : y.score ≤ x.score := by
          simpa [Vectors.scoreDesc] using hle
        refine List.Pairwise.cons ?_ (List.Pairwise.cons hy hys)
        intro z hz
        rcases List.mem_cons.mp hz with rfl | hz2
        · exact hxy
        · exact le_trans (hy z hz2) hxy
      · rename_i hle
        have hyx : x.score ≤ y.score := by
          simp only [Vectors.scoreDesc, decide_eq_true_iff] at hle
          exact le_of_lt (not_le.mp hle)
        refine List.Pairwise.cons ?_ (insertLe_pairwise_desc x ys hys)
        intro z hz
        rcases (mem_insertLe _ x z ys).mp hz with rfl | hz2
        · exact hyx
        · exact hy z hz2

/-- The stable sort used by hybrid search orders candidates by descending
score. -/
theorem sortStable_pairwise_desc :
    ∀ l : List QueryResult,
      (sortStable Vectors.scoreDesc l).Pairwise fun a b => b.score ≤ a.score
  | [] => List.Pairwise.nil
  | x :: xs => insertLe_pairwise_desc x _ (sortStable_pairwise_desc xs)

/-- One vector candidate whose metadata matches the text query only up to
letter case. -/
def fixVQ : ℕ → List QueryResult :=
  fun _ => [⟨"k1", 1/2, [("title", .str "HELLO World")]⟩]

/-- Claim C5, counterexample: on a candidate whose metadata field is
"HELLO World" and text query "hello", the source blends in a text score of
1.0 (it lower-cases the field before the substring test), while the claim's
formula — the lower-cased query against the field as-is — yields 0.0, so
the two rankings disagree. -/
theorem C5_counterexample :
    (Vectors.hybridSearch fixVQ (some "hello") 1 (7/10)).map QueryResult.score =
      [13/20] ∧
    (Vectors.hybridSearchClaim fixVQ (some "hello") 1 (7/10)).map QueryResult.score =
      [7/20] ∧
    Vectors.hybridSearch fixVQ (some "hello") 1 (7/10) ≠
      Vectors.hybridSearchClaim fixVQ (some "hello") 1 (7/10) := by
  have hts : Vectors.textScore (Vectors.strLower "hello")
      [("title", MetaValue.str "HELLO World")] = 1 := by
    unfold Vectors.textScore
    rw [if_pos (by decide)]
  have htc : Vectors.textScoreClaim (Vectors.strLower "hello")
      [("title", MetaValue.str "HELLO World")] = 0 := by
    unfold Vectors.textScoreClaim
    rw [if_neg (by decide)]
  have hemp : ("hello" : String).isEmpty = false := by decide
  have h1 : (Vectors.hybridSearch fixVQ (some "hello") 1 (7/10)).map
      QueryResult.score = [13/20] := by
    simp [Vectors.hybridSearch, hemp, fixVQ, sortStable, insertLe, hts]
    norm_num
  have h2 : (Vectors.hybridSearchClaim fixVQ (some "hello") 1 (7/10)).map
      QueryResult.score = [7/20] := by
    simp [Vectors.hybridSearchClaim, hemp, fixVQ, sortStable, insertLe, htc]
    norm_num
  refine ⟨h1, h2, ?_⟩
  intro heq
  have hmap := congrArg (List.map QueryResult.score) heq
  rw [h1, h2] at hmap
  simp only [List.cons.injEq, and_true] at hmap
  norm_num at hmap

/-- Claim C5 as amended: hybrid search takes 2×topK vector candidates; with
no (or an empty) text query it returns that ranking truncated to topK; with
a non-empty query it blends `w×vectorScore + (1−w)×textScore`, where the
text score is binary — 1.0 exactly when the lower-cased query is a
substring of the LOWER-CASED value of some string-valued metadata field —
re-sorts by descending blended score and truncates to topK. -/
theorem C5_amended (vq : ℕ → List QueryResult) (tq : String) (k : ℕ) (w : ℚ) :
    Vectors.hybridSearch vq none k w = (vq (k * 2)).take k ∧
    (tq.isEmpty = true →
      Vectors.hybridSearch vq (some tq) k w = (vq (k * 2)).take k) ∧
    (tq.isEmpty = false →
      (∀ md : List (String × MetaValue),
        (Vectors.textScore (Vectors.strLower tq) md = 1 ∨
          Vectors.textScore (Vectors.strLower tq) md = 0) ∧
        (Vectors.textScore (Vectors.strLower tq) md = 1 ↔
          ∃ kv ∈ md, ∃ v, kv.2 = MetaValue.str v ∧
            Vectors.strContains (Vectors.strLower v) (Vectors.strLower tq) = true)) ∧
      Vectors.hybridSearch vq (some tq) k w =
        (sortStable Vectors.scoreDesc ((vq (k * 2)).map fun r =>
          { r with score := w * r.score +
              (1 - w) * Vectors.textScore (Vectors.strLower tq) r.metadata })).take k ∧
      (Vectors.hybridSearch vq (some tq) k w).Pairwise
        fun a b => b.score ≤ a.score) := by
  refine ⟨rfl, ?_, ?_⟩
  · intro he
    simp [Vectors.hybridSearch, he]
  · intro he
    have heq : Vectors.hybridSearch vq (some tq) k w =
        (sortStable Vectors.scoreDesc ((vq (k * 2)).map fun r =>
          { r with score := w * r.score +
              (1 - w) * Vectors.textScore (Vectors.strLower tq) r.metadata })).take k := by
      simp [Vectors.hybridSearch, he]
    refine ⟨?_, heq, ?_⟩
    · intro md
      constructor
      · unfold Vectors.textScore
        split
        · exact Or.inl rfl
        · exact Or.inr rfl
      · unfold Vectors.textScore
        split
        · rename_i hany
          rw [List.any_eq_true] at hany
          obtain ⟨kv, hmem, hp⟩ := hany
          refine ⟨fun _ => ?_, fun _ => rfl⟩
          match hkv : kv.2 with
          | .str v =>
              rw [hkv] at hp
              exact ⟨kv, hmem, v, hkv, hp⟩
          | .other =>
              rw [hkv] at hp
              exact absurd hp (by simp)
        · rename_i hany
          constructor
          · intro h10
            norm_num at h10
          · rintro ⟨kv, hmem, v, hkv, hc⟩
            refine absurd ?_ hany
            rw [List.any_eq_true]
            exact ⟨kv, hmem, by rw [hkv]; exact hc⟩
    · rw [heq]
      exact List.Pairwise.sublist (List.take_sublist k _)
        (sortStable_pairwise_desc _)

/-- Witness for C5's amended theorem at the concrete counterexample inputs. -/
theorem C5_amended_witness :
    Vectors.hybridSearch fixVQ (some "hello") 1 (7/10) =
      (sortStable Vectors.scoreDesc ((fixVQ (1 * 2)).map fun r =>
        { r with score := 7/10 * r.score +
            (1 - 7/10) * Vectors.textScore (Vectors.strLower "hello") r.metadata })).take 1 ∧
    (Vectors.hybridSearch fixVQ (some "hello") 1 (7/10)).Pairwise
      (fun a b => b.score ≤ a.score) ∧
    Vectors.hybridSearch fixVQ none 1 (7/10) = (fixVQ (1 * 2)).take 1 := by
  have h := C5_amended fixVQ "hello" 1 (7/10)
  have h3 := h.2.2 (by decide)
  exact ⟨h3.2.1, h3.2.2, h.1⟩

/-- The try block never fails with the not-found error: that error is only
raised before the aggregate is loaded. -/
theorem tryBody_ne_notFound (a0 : AudioFile) (env : TranscribeEnv) :
    (TranscribeUC.tryBody a0 env).res ≠ .error .audioNotFound := by
  unfold TranscribeUC.tryBody
  cases h1 : a0.startProcessing with
  | error m => simp
  | ok a1 =>
    cases h2 : env.transcribeResult with
    | error m => simp
    | ok res =>
      cases h3 : TranscribeUC.buildSegments res.segments with
      | error m => simp [h3]
      | ok segs =>
        cases h4 : a1.completeTranscription
            ⟨res.text, segs, res.language, res.confidence⟩ with
        | error m => simp [h3, h4]
        | ok a2 =>
          cases h5 : a2.completeProcessing with
          | error m => simp [h3, h4, h5]
          | ok a3 =>
            cases h6 : env.saveTry with
            | some m => simp [h3, h4, h5, h6]
            | none =>
              cases h7 : env.publishTry with
              | some m => simp [h3, h4, h5, h6, h7]
              | none => simp [h3, h4, h5, h6, h7]

/-- Claim C6: whenever the try block fails after the aggregate was loaded
(and the recovery save/publish themselves do not raise), the use case ends
with the aggregate Failed — never Processing — having applied
`fail_processing` with error code TRANSCRIPTION_ERROR, persists and
publishes that failure event as the last batch, and re-raises a
transcription-specific error wrapping the original. -/
theorem C6_failure_drives_failed (env : TranscribeEnv) (a0 : AudioFile)
    (e : UseErr) (hfound : env.found = some a0)
    (herr : (TranscribeUC.tryBody a0 env).res = .error e)
    (hsave : env.saveCatch = none) (hpub : env.publishCatch = none) :
    ∃ af : AudioFile,
      (TranscribeUC.execute env).result = .error (.transcriptionError e) ∧
      (TranscribeUC.execute env).finalAudio = some af ∧
      af.status = .failed ∧
      af.status ≠ .processing ∧
      af.uncommittedEvents.getLast? =
        some (.audioProcessingFailed af.id e.msg "TRANSCRIPTION_ERROR") ∧
      (TranscribeUC.execute env).saved.getLast? = some af.uncommittedEvents ∧
      (TranscribeUC.execute env).published.getLast? = some af.uncommittedEvents := by
  have hne := tryBody_ne_notFound a0 env
  refine ⟨(TranscribeUC.tryBody a0 env).audioNow.failProcessing e.msg
    "TRANSCRIPTION_ERROR", ?_⟩
  have hexec : TranscribeUC.execute env =
      ⟨.error (.transcriptionError e),
        some ((TranscribeUC.tryBody a0 env).audioNow.failProcessing e.msg
          "TRANSCRIPTION_ERROR"),
        (TranscribeUC.tryBody a0 env).saved ++
          [((TranscribeUC.tryBody a0 env).audioNow.failProcessing e.msg
            "TRANSCRIPTION_ERROR").uncommittedEvents],
        (TranscribeUC.tryBody a0 env).published ++
          [((TranscribeUC.tryBody a0 env).audioNow.failProcessing e.msg
            "TRANSCRIPTION_ERROR").uncommittedEvents]⟩ := by
    cases e
    case audioNotFound => exact absurd herr hne
    all_goals simp [TranscribeUC.execute, hfound, herr, hsave, hpub]
  rw [hexec]
  refine ⟨rfl, rfl, rfl,
    by simp [AudioFile.failProcessing, AudioFile.applyEvent, AudioFile.whenEvent],
    ?_, ?_, ?_⟩
  · exact List.getLast?_concat _
  · exact List.getLast?_concat _
  · exact List.getLast?_concat _

/-- An environment whose transcription gateway raises after a successful
aggregate load. -/
def fixEnv : TranscribeEnv :=
  ⟨some (AudioFile.create 1 2 "k" fixMeta), .error "gateway down",
    none, none, none, none⟩

/-- Witness for C6 at a concrete run whose gateway call raises. -/
theorem C6_witness :
    ∃ af : AudioFile,
      (TranscribeUC.execute fixEnv).result =
        .error (.transcriptionError (.gatewayError "gateway down")) ∧
      (TranscribeUC.execute fixEnv).finalAudio = some af ∧
      af.status = .failed ∧
      af.status ≠ .processing ∧
      af.uncommittedEvents.getLast? =
        some (.audioProcessingFailed af.id
          (UseErr.gatewayError "gateway down").msg "TRANSCRIPTION_ERROR") ∧
      (TranscribeUC.execute fixEnv).saved.getLast? = some af.uncommittedEvents ∧
      (TranscribeUC.execute fixEnv).published.getLast? =
        some af.uncommittedEvents :=
  C6_failure_drives_failed fixEnv (AudioFile.create 1 2 "k" fixMeta)
    (.gatewayError "gateway down") rfl rfl rfl rfl

/-- Witness for C9 at the concrete segment (0, 1, "x", 0.9). -/
theorem C9_half_open_witness :
    TranscriptSegment.containsTime ⟨0, 1, "x", 9/10, none⟩ 0 = true ∧
    TranscriptSegment.containsTime ⟨0, 1, "x", 9/10, none⟩ 1 = false := by
  have h := C9_half_open 0 1 "x" (9/10) none ⟨0, 1, "x", 9/10, none⟩
    (by unfold mkTranscriptSegment
        rw [if_neg (by norm_num), if_neg (by norm_num), if_neg (by norm_num)])
  exact ⟨h.1, h.2.1⟩

end Nova
